import Mathlib

/-!
# Verification of the `news_summarizer` pipeline (`src/news_summarizer.py`)

Shallow embedding of the pure core of `NewsSummarizer`:

* Python strings are modelled as `List Char` (a Python `str` is a sequence of
  code points).
* `str.split()` (no argument) splits on runs of whitespace and discards empty
  tokens; we model the ASCII whitespace characters Python recognises
  (space, tab, newline, carriage return, vertical tab, form feed).
* The summarization pipeline call `self.summarizer(chunk, max_length=…,
  min_length=…, do_sample=False)[0]['summary_text']` is an external
  collaborator; it is modelled as a function `Summarizer` returning
  `Option (List Char)`, where `none` stands for the call raising an
  exception (or returning no candidate, which raises `IndexError` — both are
  caught by the same per-chunk `except`).
* Likewise the sentiment pipeline is a function `Sentiment` returning
  `Option String` (`none` = exception, which is caught by the per-article
  `except` and skips the whole article).
* Network and parsing effects are modelled by passing in their outcome as an
  `Except` value: a fetch that fails (network error, timeout, malformed
  XML/HTML) is `Except.error ()`, a successful one carries the parsed
  document.
* Python `int(input_len * 0.5)` and `int(input_len * 0.2)` truncate toward
  zero.  For every word count `w` occurring here (far below 2^53) the IEEE
  double products `w * 0.5` and `w * 0.2` round to values whose truncation is
  exactly `w / 2` resp. `w / 5` in natural-number (floor) division, so the
  bounds are embedded as `w / 2` and `w / 5` on `ℕ`.
-/

/-- The whitespace characters recognised by Python's `str.split()` /
regex `\s` for the ASCII range: space, tab, newline, carriage return,
vertical tab (0x0b) and form feed (0x0c). -/
def pyIsSpace (c : Char) : Bool :=
  c = ' ' || c = '\t' || c = '\n' || c = '\r' || c = '\x0b' || c = '\x0c'

/-- Accumulator-based worker for `pySplit`: `acc` holds the (reversed)
characters of the word currently being read. -/
def splitAux : List Char → List Char → List (List Char)
  | [], acc => if acc = [] then [] else [acc.reverse]
  | c :: cs, acc =>
    if pyIsSpace c then
      if acc = [] then splitAux cs [] else acc.reverse :: splitAux cs []
    else
      splitAux cs (c :: acc)

/-- Python `text.split()` with no separator: split on runs of whitespace,
no empty tokens. -/
def pySplit (text : List Char) : List (List Char) :=
  splitAux text []

/-- `len(text.split())` — the whitespace-split word count. -/
def wordCount (text : List Char) : ℕ :=
  (pySplit text).length

/-- Fuel-indexed worker for `pyChunks`; each step emits `text[i:i+1000]` and
advances by 1000 characters, so `text.length` steps of fuel always suffice. -/
def pyChunksAux : ℕ → List Char → List (List Char)
  | 0, _ => []
  | _ + 1, [] => []
  | fuel + 1, c :: cs =>
    (c :: cs).take 1000 :: pyChunksAux fuel ((c :: cs).drop 1000)

/-- `chunks = [text[i:i+1000] for i in range(0, len(text), 1000)]`
(line 118 of `news_summarizer.py`). -/
def pyChunks (text : List Char) : List (List Char) :=
  pyChunksAux text.length text

/-- `max_len = max(5, int(input_len * 0.5))` for a chunk,
where `input_len = len(chunk.split())` (lines 123–125). -/
def chunkMaxLen (chunk : List Char) : ℕ :=
  max 5 (wordCount chunk / 2)

/-- `min_len = max(3, int(input_len * 0.2))` for a chunk (line 126). -/
def chunkMinLen (chunk : List Char) : ℕ :=
  max 3 (wordCount chunk / 5)

/-- The summarization collaborator: text, max_length, min_length ↦
summary text of the first candidate, or `none` if the call raises. -/
abbrev Summarizer := List Char → ℕ → ℕ → Option (List Char)

/-- The sentiment collaborator: text ↦ label of the first candidate, or
`none` if the call raises. -/
abbrev Sentiment := List Char → Option String

/-- The per-chunk summarization loop (lines 120–137): each chunk is tried
with the bounds derived from its own word count; a chunk whose call raises
(`none`) is skipped and the loop continues with the next chunk. -/
def summariesOf (summ : Summarizer) (chunks : List (List Char)) : List (List Char) :=
  chunks.filterMap fun chunk => summ chunk (chunkMaxLen chunk) (chunkMinLen chunk)

/-- `" ".join(summaries)` (line 142). -/
def joinSpace (summaries : List (List Char)) : List Char :=
  (summaries.intersperse [' ']).flatten

/-- `final_summary[:500]` — the text handed to the sentiment model
(line 144). -/
def sentimentInput (finalSummary : List Char) : List Char :=
  finalSummary.take 500

/-- One element of the result list: `{"summary": …, "sentiment": …}`
(lines 146–149). -/
structure SummaryResult where
  summary : List Char
  sentiment : String
deriving DecidableEq

/-- The per-article body of `process_articles` (lines 112–153), given the
already-extracted text.  `none` means the article contributes nothing to
`results`: skipped by the length check (line 114), all chunks failed
(line 139), or the sentiment call raised (caught by the per-article
`except`, line 151). -/
def processArticle (summ : Summarizer) (senti : Sentiment) (text : List Char) :
    Option SummaryResult :=
  if text = [] ∨ wordCount text < 50 then none
  else
    let summaries := summariesOf summ (pyChunks text)
    if summaries = [] then none
    else
      let finalSummary := joinSpace summaries
      match senti (sentimentInput finalSummary) with
      | none => none
      | some label => some ⟨finalSummary, label⟩

/-- Article URLs are plain strings. -/
abbrev Url := String

/-- `process_articles(max_articles)` (lines 102–155), with the fetched
mapping's value lists passed in as `sourceLinks` and the extraction step
passed in as the total function `extract` (`_extract_article_text` catches
all its exceptions, see `extractArticleText`).  For every source, the first
`maxArticles` links are attempted in feed order; each article that produces
a summary and a sentiment label appends one `SummaryResult`. -/
def processArticles (maxArticles : ℕ) (sourceLinks : List (List Url))
    (extract : Url → List Char) (summ : Summarizer) (senti : Sentiment) :
    List SummaryResult :=
  sourceLinks.flatMap fun urls =>
    (urls.take maxArticles).filterMap fun url =>
      processArticle summ senti (extract url)

/-- `process_articles` with its default argument `max_articles=5`
(line 102). -/
def processArticlesDefault (sourceLinks : List (List Url))
    (extract : Url → List Char) (summ : Summarizer) (senti : Sentiment) :
    List SummaryResult :=
  processArticles 5 sourceLinks extract summ senti

/-- A parsed XML element as seen by `xml.etree.ElementTree`: a tag, the
`.text` attribute (text before the first child, `none` when absent) and the
list of child elements in document order. -/
inductive XmlElem where
  | mk (tag : String) (text : Option (List Char)) (children : List XmlElem)

/-- The tag of an element. -/
def XmlElem.tag : XmlElem → String
  | .mk t _ _ => t

/-- The `.text` attribute of an element. -/
def XmlElem.text : XmlElem → Option (List Char)
  | .mk _ tx _ => tx

/-- The child elements of an element. -/
def XmlElem.children : XmlElem → List XmlElem
  | .mk _ _ cs => cs

/-- The tag string constant for RSS items. -/
def itemTag : String := "item"

/-- The tag string constant for RSS links. -/
def linkTag : String := "link"

mutual

/-- `root.findall('.//item')` (line 91): every descendant of `root` (the
root itself excluded) whose tag is `item`, in document (preorder) order. -/
def descendantItems : XmlElem → List XmlElem
  | .mk _ _ children => descendantItemsList children

/-- Preorder item collection over a list of sibling elements. -/
def descendantItemsList : List XmlElem → List XmlElem
  | [] => []
  | c :: cs =>
    (if c.tag = itemTag then [c] else []) ++ descendantItems c ++ descendantItemsList cs

end

/-- `item.find('link')` (line 92): the first direct child with tag `link`,
or `None`. -/
def findChild (e : XmlElem) (tagName : String) : Option XmlElem :=
  e.children.find? fun c => c.tag = tagName

/-- The body of the loop at lines 91–94: the contribution of one `item`
element to `article_urls`.  The guard `if link is not None and link.text`
skips a missing `link` child, a `link` with no text (`None`), and — by
Python truthiness — a `link` whose text is the empty string. -/
def itemLink (item : XmlElem) : Option (List Char) :=
  match findChild item linkTag with
  | none => none
  | some link =>
    match link.text with
    | none => none
    | some t => if t = [] then none else some t

/-- The link-collection loop of `_fetch_source` (lines 90–96), applied to a
successfully parsed feed document. -/
def fetchLinks (root : XmlElem) : List (List Char) :=
  (descendantItems root).filterMap itemLink

/-- `_fetch_source` (lines 75–100) as a function of the outcome of the
request/parse step: its `try` block wraps everything, so any failure
(network error, timeout, malformed XML) yields `[]`, and the function never
raises. -/
def fetchSource (resp : Except Unit XmlElem) : List (List Char) :=
  match resp with
  | .error _ => []
  | .ok root => fetchLinks root

/-- `fetch_articles` (lines 50–73) as a function of the per-source
request/parse outcomes: every configured source gets an entry whose value
is `fetchSource` of its own outcome.  (The thread pool only affects the
completion order in which dict entries are inserted, never the key set or
any value; the outer `except` around `future.result()` is unreachable
because `_fetch_source` catches all its exceptions.) -/
def fetchArticles (sources : List String) (resp : String → Except Unit XmlElem) :
    List (String × List (List Char)) :=
  sources.map fun s => (s, fetchSource (resp s))

/-- `re.sub(r'\s+', ' ', text)` (line 169): every maximal run of whitespace
becomes a single space.  `prevSpace` records whether the previous character
was part of a whitespace run already replaced. -/
def collapseWsAux (prevSpace : Bool) : List Char → List Char
  | [] => []
  | c :: cs =>
    if pyIsSpace c then
      if prevSpace then collapseWsAux true cs else ' ' :: collapseWsAux true cs
    else
      c :: collapseWsAux false cs

/-- `re.sub(r'\s+', ' ', text)` on a whole string. -/
def collapseWs (text : List Char) : List Char :=
  collapseWsAux false text

/-- Python `str.strip()`: remove leading and trailing whitespace. -/
def pyStrip (text : List Char) : List Char :=
  ((text.dropWhile pyIsSpace).reverse.dropWhile pyIsSpace).reverse

/-- `_extract_article_text` (lines 157–174) as a function of the outcome of
the request/parse step.  A successful outcome carries the `get_text()` of
every `<p>` element in document order; the body keeps the non-empty ones
(`if p.get_text()`), joins with single spaces, collapses whitespace and
strips.  Its `try` wraps everything, so any failure yields the empty
string and the function never raises. -/
def extractArticleText (resp : Except Unit (List (List Char))) : List Char :=
  match resp with
  | .error _ => []
  | .ok paragraphTexts =>
    let paragraphs := paragraphTexts.filter fun p => p ≠ []
    let articleText := joinSpace paragraphs
    pyStrip (collapseWs articleText)

-- Sample data used for concrete instances.

/-- A text of `n` words: `n` copies of `a` separated by single spaces. -/
def mkWords (n : ℕ) : List Char :=
  (List.replicate n 'a').intersperse ' '

/-- A 50-word text (99 characters). -/
def words50 : List Char := mkWords 50

/-- A 49-word text. -/
def words49 : List Char := mkWords 49

/-- A summarizer whose call always raises. -/
def summNone : Summarizer := fun _ _ _ => none

/-- A summarizer that always succeeds and returns the empty summary text. -/
def summEmpty : Summarizer := fun _ _ _ => some []

/-- A label constant. -/
def posLabel : String := "POSITIVE"

/-- A sentiment collaborator that always succeeds with `posLabel`. -/
def sentiPos : Sentiment := fun _ => some posLabel

/-- A URL constant for concrete runs. -/
def urlA : Url := "https://example.com/a"

/-- A second URL constant. -/
def urlB : Url := "https://example.com/b"

/-- A 1-word chunk. -/
def chunk1w : List Char := mkWords 1

/-- A 6-word chunk. -/
def chunk6w : List Char := mkWords 6

/-- An 11-word chunk. -/
def chunk11w : List Char := mkWords 11

/-- A 100-word chunk. -/
def chunk100w : List Char := mkWords 100

/-- A 1500-character text, spanning two chunks. -/
def sample1500 : List Char := List.replicate 1500 'a'

/-- Rounding of `w * num / den` to the nearest integer, halves rounded up:
`⌊w·num/den + 1/2⌋`. -/
def roundMul (w num den : ℕ) : ℕ :=
  (2 * w * num + den) / (2 * den)

/-- The claim's `max_length = max(5, round(0.5 × w))`, following the spec's
words (round to nearest; at exact halves, rounding up and Python's
round-half-to-even agree at the input used in the counterexample below). -/
def specMaxLen (w : ℕ) : ℕ :=
  max 5 (roundMul w 1 2)

/-- The claim's `min_length = max(3, round(0.2 × w))`, following the spec's
words. -/
def specMinLen (w : ℕ) : ℕ :=
  max 3 (roundMul w 1 5)

/-- A second label constant. -/
def negLabel : String := "NEGATIVE"

/-- A sentiment collaborator that answers `posLabel` on short inputs and
`negLabel` on longer ones. -/
def sentiA : Sentiment := fun t => if t.length ≤ 500 then some posLabel else some negLabel

/-- A sentiment collaborator that answers `posLabel` on short inputs and
raises on longer ones; it agrees with `sentiA` on every input of at most
500 characters and differs beyond. -/
def sentiB : Sentiment := fun t => if t.length ≤ 500 then some posLabel else none

/-- A sample feed document: an `rss` root holding one `item` with one
`link` child carrying the text `x`. -/
def rootEx : XmlElem :=
  XmlElem.mk "rss" none [XmlElem.mk itemTag none [XmlElem.mk linkTag (some ['x']) []]]

/-- Source name constants. -/
def srcA : String := "A"

/-- Source name constants. -/
def srcB : String := "B"

/-- Per-source outcomes where `srcA`'s fetch fails and `srcB`'s succeeds. -/
def respEx : String → Except Unit XmlElem :=
  fun s => if s = srcA then .error () else .ok rootEx

/-- Per-source outcomes where both fetches succeed; agrees with `respEx`
on every source other than `srcA`. -/
def respEx2 : String → Except Unit XmlElem :=
  fun _ => .ok rootEx

/-- A summarizer that succeeds with the empty summary whenever the
`max_length` it is given is nonzero, and raises otherwise.  It agrees with
`summEmpty` at every actually-passed bound (the `max_length` floor is 5). -/
def summNonzeroMax : Summarizer :=
  fun _ maxL _ => if maxL = 0 then none else some []

/-- An extractor outcome function that returns a 49-word text for `urlB`
and a 50-word text for every other URL. -/
def extractBiased : Url → List Char :=
  fun u => if u = urlB then words49 else words50

-- Helper lemmas about the chunking worker.

/-- With enough fuel, concatenating the chunks gives back the text. -/
theorem pyChunksAux_flatten :
    ∀ (fuel : ℕ) (l : List Char), l.length ≤ fuel →
      (pyChunksAux fuel l).flatten = l := by
  intro fuel
  induction fuel with
  | zero =>
    intro l h
    have : l = [] := List.eq_nil_of_length_eq_zero (Nat.le_zero.mp h)
    subst this
    rfl
  | succ n ih =>
    intro l h
    cases l with
    | nil => rfl
    | cons c cs =>
      have hlen : ((c :: cs).drop 1000).length ≤ n := by
        simp only [List.length_drop, List.length_cons]
        simp only [List.length_cons] at h
        omega
      simp only [pyChunksAux, List.flatten_cons, ih _ hlen]
      exact List.take_append_drop 1000 (c :: cs)

/-- With enough fuel, the number of chunks is `⌈length / 1000⌉`. -/
theorem pyChunksAux_length :
    ∀ (fuel : ℕ) (l : List Char), l.length ≤ fuel →
      (pyChunksAux fuel l).length = (l.length + 999) / 1000 := by
  intro fuel
  induction fuel with
  | zero =>
    intro l h
    have : l = [] := List.eq_nil_of_length_eq_zero (Nat.le_zero.mp h)
    subst this
    rfl
  | succ n ih =>
    intro l h
    cases l with
    | nil => rfl
    | cons c cs =>
      have hlen : ((c :: cs).drop 1000).length ≤ n := by
        simp only [List.length_drop, List.length_cons]
        simp only [List.length_cons] at h
        omega
      simp only [pyChunksAux, List.length_cons, ih _ hlen, List.length_drop]
      omega

/-- With enough fuel, the `i`-th chunk is the window `text[1000·i : 1000·i + 1000]`. -/
theorem pyChunksAux_get :
    ∀ (fuel : ℕ) (l : List Char), l.length ≤ fuel →
      ∀ (i : ℕ) (hi : i < (pyChunksAux fuel l).length),
        (pyChunksAux fuel l).get ⟨i, hi⟩ = (l.drop (1000 * i)).take 1000 := by
  intro fuel
  induction fuel with
  | zero =>
    intro l h i hi
    simp only [pyChunksAux, List.length_nil] at hi
    omega
  | succ n ih =>
    intro l h i hi
    cases l with
    | nil =>
      simp only [pyChunksAux, List.length_nil] at hi
      omega
    | cons c cs =>
      have hlen : ((c :: cs).drop 1000).length ≤ n := by
        simp only [List.length_drop, List.length_cons]
        simp only [List.length_cons] at h
        omega
      cases i with
      | zero =>
        simp [pyChunksAux]
      | succ i =>
        have hi' : i < (pyChunksAux n ((c :: cs).drop 1000)).length := by
          simp only [pyChunksAux, List.length_cons] at hi
          omega
        have step := ih _ hlen i hi'
        have hdrop : (((c :: cs).drop 1000).drop (1000 * i)) =
            (c :: cs).drop (1000 * (i + 1)) := by
          rw [List.drop_drop]
          congr 1
          ring
        simp only [pyChunksAux, List.get_cons_succ]
        rw [step, hdrop]

/-- C2: the chunking step (line 118) is deterministic and total — the
chunks are the consecutive non-overlapping 1000-character windows of the
text (`i`-th chunk = `text[1000·i : 1000·i + 1000]`, so the last one may be
shorter), their concatenation reconstructs the text exactly, and the number
of chunks is `⌈length/1000⌉`. -/
theorem chunking_reconstructs (text : List Char) :
    (pyChunks text).flatten = text ∧
    (pyChunks text).length = (text.length + 999) / 1000 ∧
    ∀ (i : ℕ) (hi : i < (pyChunks text).length),
      (pyChunks text).get ⟨i, hi⟩ = (text.drop (1000 * i)).take 1000 := by
  refine ⟨pyChunksAux_flatten _ _ le_rfl, pyChunksAux_length _ _ le_rfl, ?_⟩
  intro i hi
  exact pyChunksAux_get _ _ le_rfl i hi

/-- A 1500-character text yields two chunks. -/
theorem sample1500_two_chunks : 1 < (pyChunks sample1500).length := by
  have h := pyChunksAux_length sample1500.length sample1500 le_rfl
  unfold pyChunks
  rw [h]
  have hl : sample1500.length = 1500 := by
    simp only [sample1500, List.length_replicate]
  rw [hl]
  norm_num

/-- Witness for C2 on a concrete 1500-character text. -/
theorem chunking_reconstructs_witness :
    (pyChunks sample1500).flatten = sample1500 ∧
    (pyChunks sample1500).length = (sample1500.length + 999) / 1000 ∧
    (pyChunks sample1500).get ⟨1, sample1500_two_chunks⟩ =
      (sample1500.drop 1000).take 1000 :=
  ⟨(chunking_reconstructs sample1500).1,
   (chunking_reconstructs sample1500).2.1,
   (chunking_reconstructs sample1500).2.2 1 sample1500_two_chunks⟩

/-- C1 counterexample: on an 11-word chunk the code passes
`max_length = max(5, int(11 * 0.5)) = 5`, while the claim's
`max(5, round(0.5 × 11)) = max(5, round(5.5)) = 6` (both round-half-up and
Python's round-half-to-even send 5.5 to 6), so the claimed formula is not
the one in the code. -/
theorem chunk_bounds_counterexample :
    wordCount chunk11w = 11 ∧
    chunkMaxLen chunk11w = 5 ∧
    specMaxLen (wordCount chunk11w) = 6 ∧
    chunkMaxLen chunk11w ≠ specMaxLen (wordCount chunk11w) := by
  decide

/-- C1 (amended): the summarizer is consulted exactly at the bounds
`max_length = max(5, ⌊0.5·w⌋)` and `min_length = max(3, ⌊0.2·w⌋)` derived
from the chunk's whitespace-split word count `w` (Python `int()` truncates
rather than rounds): two summarizers agreeing at those bounds make
`processArticle` agree; and `w = 1` gives `max=5, min=3`, `w = 100` gives
`max=50, min=20`, `w = 6` gives `max=5, min=3`. -/
theorem chunk_bounds (summ₁ summ₂ : Summarizer) (senti : Sentiment) (text : List Char)
    (h : ∀ chunk, summ₁ chunk (chunkMaxLen chunk) (chunkMinLen chunk)
        = summ₂ chunk (chunkMaxLen chunk) (chunkMinLen chunk)) :
    processArticle summ₁ senti text = processArticle summ₂ senti text ∧
    chunkMaxLen chunk1w = 5 ∧ chunkMinLen chunk1w = 3 ∧
    chunkMaxLen chunk100w = 50 ∧ chunkMinLen chunk100w = 20 ∧
    chunkMaxLen chunk6w = 5 ∧ chunkMinLen chunk6w = 3 ∧
    wordCount chunk1w = 1 ∧ wordCount chunk100w = 100 ∧ wordCount chunk6w = 6 := by
  refine ⟨?_, by decide, by decide, by decide, by decide, by decide, by decide,
    by decide, by decide, by decide⟩
  have hs : summariesOf summ₁ (pyChunks text) = summariesOf summ₂ (pyChunks text) := by
    unfold summariesOf
    exact List.filterMap_congr fun c _ => h c
  unfold processArticle
  rw [hs]

/-- Witness for C1 (amended): `summEmpty` and `summNonzeroMax` differ on
`max_length = 0` but agree at every passed bound, so the pipeline results
agree on a concrete 50-word text. -/
theorem chunk_bounds_witness :
    processArticle summEmpty sentiPos words50 = processArticle summNonzeroMax sentiPos words50 ∧
    chunkMaxLen chunk1w = 5 ∧ chunkMinLen chunk1w = 3 ∧
    chunkMaxLen chunk100w = 50 ∧ chunkMinLen chunk100w = 20 ∧
    chunkMaxLen chunk6w = 5 ∧ chunkMinLen chunk6w = 3 ∧
    wordCount chunk1w = 1 ∧ wordCount chunk100w = 100 ∧ wordCount chunk6w = 6 :=
  chunk_bounds summEmpty summNonzeroMax sentiPos words50 fun chunk => by
    have hmax : chunkMaxLen chunk ≠ 0 := by
      unfold chunkMaxLen
      omega
    simp [summEmpty, summNonzeroMax, hmax]

/-- C3: any article whose extracted text has fewer than 50 whitespace-split
words (in particular the empty text) contributes no `SummaryResult`
(line 114); a 50-word text passes the length check while a 49-word text
does not. -/
theorem short_article_skipped :
    (∀ (summ : Summarizer) (senti : Sentiment) (text : List Char),
        wordCount text < 50 → processArticle summ senti text = none) ∧
    ¬ (words50 = [] ∨ wordCount words50 < 50) ∧
    (words49 = [] ∨ wordCount words49 < 50) ∧
    wordCount words50 = 50 ∧ wordCount words49 = 49 := by
  refine ⟨?_, by decide, by decide, by decide, by decide⟩
  intro summ senti text h
  have hcond : text = [] ∨ wordCount text < 50 := Or.inr h
  simp [processArticle, hcond]

/-- Witness for C3 at a concrete 49-word text. -/
theorem short_article_skipped_witness :
    wordCount words49 < 50 ∧ processArticle summEmpty sentiPos words49 = none :=
  ⟨by decide, short_article_skipped.1 summEmpty sentiPos words49 (by decide)⟩

/-- C5: if the summarization call fails on every chunk of an article, the
article contributes nothing (lines 139–140) — in particular no result with
an empty summary — and a failing chunk is simply skipped, leaving the
remaining chunks' contributions intact (lines 135–137). -/
theorem all_chunks_fail_no_result :
    (∀ (summ : Summarizer) (senti : Sentiment) (text : List Char),
        (∀ chunk ∈ pyChunks text,
            summ chunk (chunkMaxLen chunk) (chunkMinLen chunk) = none) →
        processArticle summ senti text = none) ∧
    (∀ (summ : Summarizer) (chunk : List Char) (chunks : List (List Char)),
        summ chunk (chunkMaxLen chunk) (chunkMinLen chunk) = none →
        summariesOf summ (chunk :: chunks) = summariesOf summ chunks) := by
  constructor
  · intro summ senti text h
    unfold processArticle
    split
    · rfl
    · have hs : summariesOf summ (pyChunks text) = [] := by
        unfold summariesOf
        exact List.filterMap_eq_nil_iff.mpr h
      simp [hs]
  · intro summ chunk chunks h
    unfold summariesOf
    simp [List.filterMap_cons, h]

/-- Witness for C5: the always-failing summarizer on a 50-word text. -/
theorem all_chunks_fail_no_result_witness :
    processArticle summNone sentiPos words50 = none ∧
    summariesOf summNone [chunk1w] = summariesOf summNone [] :=
  ⟨all_chunks_fail_no_result.1 summNone sentiPos words50 fun _ _ => rfl,
   all_chunks_fail_no_result.2 summNone chunk1w [] rfl⟩

/-- C6: the sentiment model is only ever consulted at
`final_summary[:500]` (line 144) — two sentiment collaborators agreeing on
all inputs of at most 500 characters make `processArticle` agree — and that
input is a prefix of the final summary of length at most 500, equal to the
whole summary when it has at most 500 characters (truncation, never an
error). -/
theorem sentiment_truncation :
    (∀ (summ : Summarizer) (senti₁ senti₂ : Sentiment) (text : List Char),
        (∀ t : List Char, t.length ≤ 500 → senti₁ t = senti₂ t) →
        processArticle summ senti₁ text = processArticle summ senti₂ text) ∧
    (∀ finalSummary : List Char,
        (sentimentInput finalSummary).length ≤ 500 ∧
        sentimentInput finalSummary <+: finalSummary ∧
        (finalSummary.length ≤ 500 → sentimentInput finalSummary = finalSummary)) := by
  constructor
  · intro summ s₁ s₂ text h
    simp only [processArticle]
    split
    · rfl
    · split
      · rfl
      · have hle : (sentimentInput (joinSpace (summariesOf summ (pyChunks text)))).length ≤ 500 := by
          unfold sentimentInput
          exact List.length_take_le _ _
        rw [h _ hle]
  · intro fs
    exact ⟨List.length_take_le _ _, List.take_prefix _ _,
      fun h => List.take_of_length_le h⟩

/-- Witness for C6: `sentiA` and `sentiB` differ on inputs longer than 500
characters yet give the same pipeline result, and a 99-character summary is
passed whole. -/
theorem sentiment_truncation_witness :
    processArticle summEmpty sentiA words50 = processArticle summEmpty sentiB words50 ∧
    (sentimentInput sample1500).length ≤ 500 ∧
    sentimentInput words50 = words50 :=
  ⟨sentiment_truncation.1 summEmpty sentiA sentiB words50 fun t ht => by
      simp [sentiA, sentiB, ht],
   (sentiment_truncation.2 sample1500).1,
   (sentiment_truncation.2 words50).2.2 (by decide)⟩

/-- C4: the Feed Fetcher's mapping has exactly the configured source names
as keys regardless of the per-source outcomes; a source whose fetch fails
still appears, mapped to the empty list (lines 98–100); and each source's
entry depends only on that source's own outcome, so one source's failure
cannot affect another's entry. -/
theorem fetch_mapping_total :
    (∀ (sources : List String) (resp : String → Except Unit XmlElem),
        (fetchArticles sources resp).map Prod.fst = sources) ∧
    (∀ (sources : List String) (resp : String → Except Unit XmlElem) (s : String),
        resp s = Except.error () → s ∈ sources →
        (s, ([] : List (List Char))) ∈ fetchArticles sources resp) ∧
    (∀ (sources : List String) (r₁ r₂ : String → Except Unit XmlElem) (s : String),
        r₁ s = r₂ s →
        (fetchArticles sources r₁).lookup s = (fetchArticles sources r₂).lookup s) := by
  refine ⟨?_, ?_, ?_⟩
  · intro sources resp
    induction sources with
    | nil => rfl
    | cons t ts ih =>
      unfold fetchArticles at ih ⊢
      simp only [List.map_cons]
      simp [ih]
  · intro sources resp s hresp hs
    unfold fetchArticles
    have hval : (s, ([] : List (List Char))) = (s, fetchSource (resp s)) := by
      rw [hresp]
      rfl
    rw [hval]
    exact List.mem_map_of_mem _ hs
  · intro sources r₁ r₂ s h
    induction sources with
    | nil => rfl
    | cons t ts ih =>
      unfold fetchArticles at ih ⊢
      simp only [List.map_cons, List.lookup]
      cases hts : (s == t) with
      | true =>
        show some (fetchSource (r₁ t)) = some (fetchSource (r₂ t))
        have heq : s = t := eq_of_beq hts
        rw [← heq, h]
      | false =>
        exact ih

/-- Witness for C4 on two concrete sources where the first source's fetch
fails: the key set is intact, the failed source maps to `[]`, and the other
source's entry is what it would have been had the first succeeded. -/
theorem fetch_mapping_total_witness :
    (fetchArticles [srcA, srcB] respEx).map Prod.fst = [srcA, srcB] ∧
    (srcA, ([] : List (List Char))) ∈ fetchArticles [srcA, srcB] respEx ∧
    (fetchArticles [srcA, srcB] respEx).lookup srcB =
      (fetchArticles [srcA, srcB] respEx2).lookup srcB :=
  ⟨fetch_mapping_total.1 [srcA, srcB] respEx,
   fetch_mapping_total.2.1 [srcA, srcB] respEx srcA (by simp [respEx]) (by simp),
   fetch_mapping_total.2.2 [srcA, srcB] respEx respEx2 srcB (by
      simp [respEx, respEx2, srcA, srcB])⟩

/-- C7: the orchestrator attempts exactly the first `max_articles` links of
every source in feed order (line 111) — its output is unchanged by any
change to the extraction of a link outside those prefixes; with a 2-link
source and `max_articles = 1`, the result is exactly the first link's
contribution; and the default cap of `process_articles` is 5 (line 102). -/
theorem per_source_cap :
    (∀ (maxA : ℕ) (sources : List (List Url)) (e₁ e₂ : Url → List Char)
        (summ : Summarizer) (senti : Sentiment),
        (∀ url ∈ sources.flatMap (List.take maxA), e₁ url = e₂ url) →
        processArticles maxA sources e₁ summ senti =
          processArticles maxA sources e₂ summ senti) ∧
    (∀ (u₁ u₂ : Url) (e : Url → List Char) (summ : Summarizer) (senti : Sentiment),
        processArticles 1 [[u₁, u₂]] e summ senti =
          (processArticle summ senti (e u₁)).toList) ∧
    (∀ (sources : List (List Url)) (e : Url → List Char) (summ : Summarizer)
        (senti : Sentiment),
        processArticlesDefault sources e summ senti =
          processArticles 5 sources e summ senti) := by
  refine ⟨?_, ?_, fun _ _ _ _ => rfl⟩
  · intro maxA sources e₁ e₂ summ senti
    induction sources with
    | nil => intro h; rfl
    | cons s ss ih =>
      intro h
      unfold processArticles
      simp only [List.flatMap_cons]
      have h₁ : ∀ url ∈ s.take maxA, e₁ url = e₂ url := by
        intro url hu
        exact h url (by
          rw [List.flatMap_cons]
          exact List.mem_append.mpr (Or.inl hu))
      have h₂ : ∀ url ∈ ss.flatMap (List.take maxA), e₁ url = e₂ url := by
        intro url hu
        exact h url (by
          rw [List.flatMap_cons]
          exact List.mem_append.mpr (Or.inr hu))
      have hrest := ih h₂
      unfold processArticles at hrest
      rw [hrest]
      congr 1
      exact List.filterMap_congr fun url hu => by rw [h₁ url hu]
  · intro u₁ u₂ e summ senti
    cases hr : processArticle summ senti (e u₁) with
    | none => simp [processArticles, hr]
    | some r => simp [processArticles, hr]

/-- Witness for C7: with `max_articles = 1` the second link's extraction is
irrelevant (`extractBiased` differs from the constant extractor only at
`urlB`), the 2-link scenario yields exactly the first link's result, and
the default-cap equation at concrete arguments. -/
theorem per_source_cap_witness :
    processArticles 1 [[urlA, urlB]] extractBiased summEmpty sentiPos =
      processArticles 1 [[urlA, urlB]] (fun _ => words50) summEmpty sentiPos ∧
    processArticles 1 [[urlA, urlB]] extractBiased summEmpty sentiPos =
      (processArticle summEmpty sentiPos (extractBiased urlA)).toList ∧
    processArticlesDefault [[urlA]] (fun _ => words50) summEmpty sentiPos =
      processArticles 5 [[urlA]] (fun _ => words50) summEmpty sentiPos :=
  ⟨per_source_cap.1 1 [[urlA, urlB]] extractBiased (fun _ => words50) summEmpty sentiPos
      (fun url hu => by
        simp only [List.flatMap_cons, List.flatMap_nil, List.append_nil] at hu
        have h1 : List.take 1 [urlA, urlB] = [urlA] := rfl
        rw [h1] at hu
        simp only [List.mem_singleton] at hu
        subst hu
        decide),
   per_source_cap.2.1 urlA urlB extractBiased summEmpty sentiPos,
   per_source_cap.2.2 [[urlA]] (fun _ => words50) summEmpty sentiPos⟩

/-- C8: `_extract_article_text` returns the empty string on any failure of
its request/parse/extraction steps (lines 172–174) rather than raising; the
orchestrator then skips such an article via the length check (line 114);
and in a whole run, failing one URL's extraction only removes that URL's
contribution, leaving every other article's contribution intact. -/
theorem extraction_failure_skipped :
    (∀ e : Unit, extractArticleText (Except.error e) = []) ∧
    (∀ (summ : Summarizer) (senti : Sentiment) (e : Unit),
        processArticle summ senti (extractArticleText (Except.error e)) = none) ∧
    (∀ (maxA : ℕ) (sources : List (List Url)) (ext : Url → List Char) (u : Url)
        (summ : Summarizer) (senti : Sentiment),
        processArticles maxA sources
            (Function.update ext u (extractArticleText (Except.error ()))) summ senti =
          sources.flatMap fun urls =>
            (urls.take maxA).filterMap fun url =>
              if url = u then none else processArticle summ senti (ext url)) := by
  have hempty : ∀ e : Unit, extractArticleText (Except.error e) = [] := fun _ => rfl
  have hskip : ∀ (summ : Summarizer) (senti : Sentiment) (e : Unit),
      processArticle summ senti (extractArticleText (Except.error e)) = none := by
    intro summ senti e
    rw [hempty]
    have hcond : ([] : List Char) = [] ∨ wordCount [] < 50 := Or.inl rfl
    simp [processArticle, hcond]
  refine ⟨hempty, hskip, ?_⟩
  intro maxA sources ext u summ senti
  unfold processArticles
  induction sources with
  | nil => rfl
  | cons s ss ih =>
    simp only [List.flatMap_cons]
    rw [ih]
    congr 1
    apply List.filterMap_congr
    intro url hu
    by_cases hx : url = u
    · subst hx
      rw [if_pos rfl, Function.update_same]
      exact hskip summ senti ()
    · rw [if_neg hx, Function.update_noteq hx]

/-- C9: every link string collected by `_fetch_source` is non-empty — an
`item` with no `link` child, a `link` with absent text, or a `link` with
empty text contributes nothing (the guard on line 93, where Python
truthiness makes the empty string falsy). -/
theorem fetched_links_nonempty :
    (∀ (root : XmlElem) (l : List Char), l ∈ fetchLinks root → l ≠ []) ∧
    (∀ item : XmlElem, findChild item linkTag = none → itemLink item = none) ∧
    (∀ (item link : XmlElem), findChild item linkTag = some link →
        (link.text = none ∨ link.text = some []) → itemLink item = none) := by
  refine ⟨?_, ?_, ?_⟩
  · intro root l hl hnil
    unfold fetchLinks at hl
    obtain ⟨item, _, hlink⟩ := List.mem_filterMap.mp hl
    cases hfc : findChild item linkTag with
    | none => simp [itemLink, hfc] at hlink
    | some link =>
      cases htx : link.text with
      | none => simp [itemLink, hfc, htx] at hlink
      | some t =>
        simp only [itemLink, hfc, htx] at hlink
        by_cases ht : t = []
        · simp [ht] at hlink
        · rw [if_neg ht] at hlink
          subst hnil
          exact ht (Option.some.inj hlink)
  · intro item h
    simp [itemLink, h]
  · intro item link h htx
    rcases htx with h1 | h1 <;> simp [itemLink, h, h1]

/-- The sample feed document yields exactly the one link `x`. -/
theorem rootEx_links : fetchLinks rootEx = [['x']] := by
  simp [fetchLinks, rootEx, descendantItems, descendantItemsList, itemLink, findChild,
    XmlElem.tag, XmlElem.text, XmlElem.children, itemTag, linkTag, List.find?]

/-- Witness for C9 on the sample feed document. -/
theorem fetched_links_nonempty_witness :
    (['x'] : List Char) ≠ [] ∧
    itemLink (XmlElem.mk itemTag none []) = none ∧
    itemLink (XmlElem.mk itemTag none [XmlElem.mk linkTag (some []) []]) = none :=
  ⟨fetched_links_nonempty.1 rootEx ['x'] (by rw [rootEx_links]; exact List.mem_singleton.mpr rfl),
   fetched_links_nonempty.2.1 (XmlElem.mk itemTag none []) rfl,
   fetched_links_nonempty.2.2 (XmlElem.mk itemTag none [XmlElem.mk linkTag (some []) []])
      (XmlElem.mk linkTag (some []) []) (by simp [findChild, XmlElem.children, List.find?,
        XmlElem.tag]) (Or.inr rfl)⟩

/-- C10: the append of a result is gated on `summaries` being non-empty
(line 139), not on the joined summary text being non-empty: a run whose
only article has one chunk that summarizes successfully to the empty string
appends a `SummaryResult` with `summary = ""`. -/
theorem empty_summary_result :
    processArticles 5 [[urlA]] (fun _ => words50) summEmpty sentiPos =
      [⟨[], posLabel⟩] ∧
    processArticle summEmpty sentiPos words50 = some ⟨[], posLabel⟩ := by
  constructor
  · decide
  · decide
